import Mathlib

/-!
Verification of the KenzAI ticket-and-identity registry core.

The JSON stores are modelled as association lists `List (String × V)` with
JavaScript-object semantics: lookup finds the first binding, assignment
replaces in place (or appends a fresh key at the end), deletion removes the
key.  JavaScript truthiness of optional strings ("" , null and undefined are
falsy) is modelled by `truthyS`, and `x || y || null` chains by
`firstTruthy`.  `String.prototype.toLowerCase` is modelled by `lowerStr`.
-/

namespace KenzAI

/-- JS truthiness of a possibly-absent string: `null`/`undefined`/`""` are falsy. -/
def truthyS : Option String → Bool
  | none => false
  | some s => s != ""

/-- JS `a || b || ... || null` over possibly-absent strings: first truthy value, else `null`. -/
def firstTruthy : List (Option String) → Option String
  | [] => none
  | a :: rest => if truthyS a then a else firstTruthy rest

/-- Model of `String.prototype.toLowerCase`. -/
def lowerStr (s : String) : String :=
  ⟨s.data.map Char.toLower⟩

/-! ## Association-list model of a JSON object store -/

/-- `obj[key]` — first binding wins (JS object keys are unique anyway). -/
def lookupKey {V : Type} : List (String × V) → String → Option V
  | [], _ => none
  | (k, v) :: rest, key => if k = key then some v else lookupKey rest key

/-- `obj[key] = v` — replace in place, or append a fresh key at the end
(JS objects preserve insertion order). -/
def setKey {V : Type} : List (String × V) → String → V → List (String × V)
  | [], key, v => [(key, v)]
  | (k, w) :: rest, key, v =>
    if k = key then (k, v) :: rest else (k, w) :: setKey rest key v

/-- `delete obj[key]`. -/
def delKey {V : Type} : List (String × V) → String → List (String × V)
  | [], _ => []
  | (k, w) :: rest, key =>
    if k = key then delKey rest key else (k, w) :: delKey rest key

/-! ## Applicant Registry (`Discord Bot/modules/applications/applicants.js`) -/

/-- The `applicantData` argument object passed to `saveApplicant`; absent JS
properties are `none`.  The legacy properties `minecraftName` and `discordTag`
are read by the fallback chains even though `saveApplicant` never writes them. -/
structure ApplicantInput where
  discordUser : Option String := none
  discordTag : Option String := none
  minecraftUser : Option String := none
  minecraftName : Option String := none
  minecraftVersion : Option String := none
  timezone : Option String := none
  previousGroups : Option String := none
  reason : Option String := none
  openedAt : Option String := none
  server : Option String := none
  closeReason : Option String := none
  closedAt : Option String := none
  deriving Repr, DecidableEq

/-- The record shape produced by `saveApplicant` and stored in
`applicants.json`.  The two trailing legacy fields are carried so that stores
containing old hand-written records can be modelled; `saveApplicant` always
writes them as `none`. -/
structure ApplicantRecord where
  discordId : String
  discordUser : Option String
  minecraftUser : Option String
  minecraftUserKey : Option String
  minecraftVersion : Option String
  timezone : Option String
  previousGroups : Option String
  reason : Option String
  openedAt : String
  server : Option String
  accepted : Bool
  closeReason : Option String
  closedAt : Option String
  minecraftName : Option String
  discordTag : Option String
  deriving Repr, DecidableEq

abbrev AppStore := List (String × ApplicantRecord)

/-- `saveApplicant(discordId, applicantData, serverId, closeReason, accepted, closedAt)`:
builds a fresh record from the supplied data and replaces the store entry.
`now` stands for `new Date().toISOString()`. -/
def saveApplicant (store : AppStore) (discordId : String) (a : ApplicantInput)
    (serverId closeReasonArg : Option String) (acceptedArg : Bool)
    (closedAtArg : Option String) (now : String) : ApplicantRecord × AppStore :=
  let mcOriginal : String := (firstTruthy [a.minecraftUser, a.minecraftName]).getD ""
  let mcKey : String := if mcOriginal = "" then "" else lowerStr mcOriginal
  let r : ApplicantRecord :=
    { discordId := discordId
      discordUser := firstTruthy [a.discordUser, a.discordTag]
      minecraftUser := if mcOriginal = "" then none else some mcOriginal
      minecraftUserKey := if mcKey = "" then none else some mcKey
      minecraftVersion := a.minecraftVersion
      timezone := firstTruthy [a.timezone]
      previousGroups := firstTruthy [a.previousGroups]
      reason := firstTruthy [a.reason]
      openedAt := match a.openedAt with
        | some s => if s = "" then now else s
        | none => now
      server := firstTruthy [serverId, a.server]
      accepted := acceptedArg
      closeReason := firstTruthy [closeReasonArg, a.closeReason]
      closedAt := firstTruthy [closedAtArg, a.closedAt]
      minecraftName := none
      discordTag := none }
  (r, setKey store discordId r)

/-- `getApplicant(discordId)` — `data[discordId] || null`. -/
def getApplicant (store : AppStore) (discordId : String) : Option ApplicantRecord :=
  lookupKey store discordId

/-! ## Identity Link Registry (`modules/linking/linklogic.js`) -/

structure LinkRecord where
  discordId : String
  minecraftUser : String
  deriving Repr, DecidableEq

abbrev LinkStore := List (String × LinkRecord)

/-- The discriminated result objects returned by `linkMember` and
`processApplicant` (`success`/`reason`/`details`, never thrown). -/
inductive LinkResult where
  | ok (discordId minecraftUser : String)
  | invalidArguments
  | noMcNameProvided
  | alreadyLinked (discordId existingMinecraftUser : String)
  | usernameUsed (minecraftUser : String)
  | noApplicantOrNoMc (discordId : String)
  deriving Repr, DecidableEq

/-- `linkMember(discordId, mcName)` over the link store `links`; `apps` is the
applicant store consulted by the missing-`mcName` fallback. -/
def linkMember (apps : AppStore) (links : LinkStore) (discordId : String)
    (mcNameArg : Option String) : LinkResult × LinkStore :=
  if discordId = "" then (LinkResult.invalidArguments, links)
  else
    let mcName? : Option String :=
      if truthyS mcNameArg then mcNameArg
      else match getApplicant apps discordId with
        | some app => if truthyS app.minecraftName then app.minecraftName else none
        | none => none
    match mcName? with
    | none => (LinkResult.noMcNameProvided, links)
    | some mcName =>
      let mcKey := lowerStr mcName
      match lookupKey links discordId with
      | some existing =>
        (LinkResult.alreadyLinked discordId existing.minecraftUser, links)
      | none =>
        if (links.map Prod.snd).any (fun v => lowerStr v.minecraftUser == mcKey) then
          (LinkResult.usernameUsed mcName, links)
        else
          (LinkResult.ok discordId mcName,
            setKey links discordId ⟨discordId, mcName⟩)

/-- `getMCFromDiscord(discordId)` — `data[discordId]?.minecraftUser || null`. -/
def getMCFromDiscord (links : LinkStore) (discordId : String) : Option String :=
  match lookupKey links discordId with
  | some r => if r.minecraftUser = "" then none else some r.minecraftUser
  | none => none

/-- `getDiscordFromMC(mcName)` — case-insensitive scan over `Object.values(data)`. -/
def getDiscordFromMC (links : LinkStore) (mcName : String) : Option String :=
  if mcName = "" then none
  else
    let mcKey := lowerStr mcName
    match (links.map Prod.snd).find? (fun v => lowerStr v.minecraftUser == mcKey) with
    | some entry => if entry.discordId = "" then none else some entry.discordId
    | none => none

/-! ## Auto-link (`modules/linking/autolink.js`) -/

/-- The eventual computation of the deferred `processApplicant(discordId)`
task (the surrounding `setTimeout`/`Promise` plumbing only delays it). -/
def processApplicant (apps : AppStore) (links : LinkStore) (discordId : String) :
    LinkResult × LinkStore :=
  match getApplicant apps discordId with
  | none => (LinkResult.noApplicantOrNoMc discordId, links)
  | some applicant =>
    if truthyS applicant.minecraftName then
      linkMember apps links discordId applicant.minecraftName
    else
      (LinkResult.noApplicantOrNoMc discordId, links)

/-! ## Lifecycle transitions (`Discord Bot/modules/applications/application.js`) -/

/-- The applicant-store effect of the Open transition
(`modalHandler`, `application_modal_` branch): the `saveApplicant` call with
the freshly submitted modal fields. -/
def openApplication (apps : AppStore)
    (userId userTag mcName mcVersion tz prevGroups reasonText guildId now : String) :
    ApplicantRecord × AppStore :=
  saveApplicant apps userId
    { discordUser := some userTag
      minecraftUser := some mcName
      minecraftVersion := some mcVersion
      timezone := some tz
      previousGroups := some prevGroups
      reason := some reasonText
      server := some guildId }
    none none false none now

/-- View a stored record as the spread `{...applicantData}` object fed back
into `saveApplicant` by the Close transition. -/
def recordToInput (r : ApplicantRecord) : ApplicantInput :=
  { discordUser := r.discordUser
    discordTag := r.discordTag
    minecraftUser := r.minecraftUser
    minecraftName := r.minecraftName
    minecraftVersion := r.minecraftVersion
    timezone := r.timezone
    previousGroups := r.previousGroups
    reason := r.reason
    openedAt := some r.openedAt
    server := r.server
    closeReason := r.closeReason
    closedAt := r.closedAt }

/-- The applicant-store effect of the Close transition
(`modalHandler`, `close_reason_modal_` branch) once the session resolved to
`openerId`: re-save the record with `discordUser` set to the closing user's
tag and `minecraftUser` carried over. -/
def closeTicket (apps : AppStore) (openerId closerTag guildId reasonText now : String) :
    AppStore :=
  match getApplicant apps openerId with
  | none => apps
  | some a =>
    let mcUser : String := (firstTruthy [a.minecraftUser, a.minecraftName]).getD ""
    let input : ApplicantInput :=
      { recordToInput a with
        discordUser := some closerTag
        minecraftUser := some mcUser }
    (saveApplicant apps openerId input (some guildId) (some reasonText)
      a.accepted (some now) now).2

/-! ## Clan Registry and promotion (`modules/applications/acceptedapplicants.js`) -/

/-- A `clans.json` entry as written by the `/clan add` command. -/
structure ClanRecord where
  abbr : String
  name : String
  joinedEmpire : String
  invite : Option String := none
  bannerURL : Option String := none
  deriving Repr, DecidableEq

abbrev ClanStore := List (String × ClanRecord)

/-- A `members.json` entry as written by `acceptApplicant`. -/
structure MemberRecord where
  discordId : String
  discordUser : String
  minecraftUser : String
  minecraftVersion : String
  JoinedClan : String
  JoinDate : String
  YazanakiRank : String
  EmpireID : String
  Status : String
  deriving Repr, DecidableEq

abbrev MemberStore := List (String × MemberRecord)

/-- A calendar date, standing for the `new Date()` taken inside `acceptApplicant`. -/
structure Date where
  day : Nat
  month : Nat
  year : Nat
  deriving Repr, DecidableEq

/-- `String(n).padStart(2, "0")`. -/
def pad2 (n : Nat) : String :=
  if n < 10 then "0" ++ toString n else toString n

/-- `formatDate` — renders `dd.mm.yyyy`. -/
def formatDate (d : Date) : String :=
  pad2 d.day ++ "." ++ pad2 d.month ++ "." ++ toString d.year

/-- `acceptApplicant(discordId)`: promote an accepted applicant into
`members.json`; `now` stands for the `new Date()` taken inside the function. -/
def acceptApplicant (apps : AppStore) (clans : ClanStore) (members : MemberStore)
    (discordId : String) (now : Date) : MemberStore :=
  match lookupKey apps discordId with
  | none => members
  | some data =>
    if data.accepted = false then members
    else
      let discordUser := data.discordUser.getD ""
      let minecraftUser := data.minecraftUser.getD ""
      let minecraftVersion := data.minecraftVersion.getD ""
      let closeDate := formatDate now
      let clanName : String :=
        match data.server with
        | none => "Unknown"
        | some s =>
          match lookupKey clans s with
          | some c => if c.name = "" then "Unknown" else c.name
          | none => "Unknown"
      let entry : MemberRecord :=
        ⟨discordId, discordUser, minecraftUser, minecraftVersion,
          clanName, closeDate, "", "", ""⟩
      setKey members discordId entry

/-! ## Member Registry lookups (`modules/membertracking/memberlogic.js`) -/

/-- `getMemberByDiscordId(discordId)` — `members[discordId] || null`. -/
def getMemberByDiscordId (members : MemberStore) (discordId : String) :
    Option MemberRecord :=
  lookupKey members discordId

/-- `isUnlinked(discordId)` — false as soon as a member record exists,
otherwise true iff the link registry resolves no Minecraft username. -/
def isUnlinked (members : MemberStore) (links : LinkStore) (discordId : String) : Bool :=
  match getMemberByDiscordId members discordId with
  | some _ => false
  | none =>
    match getMCFromDiscord links discordId with
    | some _ => false
    | none => true

/-! ## Record Store load/save (`linklogic.ensureDataFile`, `applicants.loadApplicants`)

A store file is `Option String` (`none` = missing).  `JSON.parse`, an external
builtin whose failure is a thrown exception, is abstracted as a function
`parse : String → Option (List (String × V))` with `none` for the throw. -/

/-- `ensureDataFile()` in `linklogic.js`: returns the loaded mapping together
with the resulting file contents (the function creates/rewrites the file with
`"{}"` on every failure path and never throws). -/
def ensureDataFile {V : Type} (parse : String → Option (List (String × V)))
    (file : Option String) : List (String × V) × Option String :=
  match file with
  | none => ([], some "{}")
  | some raw =>
    if raw.trim = "" then ([], some "{}")
    else
      match parse raw with
      | some m => (m, some raw)
      | none => ([], some "{}")

/-- `saveData(data)` / `saveApplicants(data)`: whole-document overwrite —
the new file contents are the serialized mapping. -/
def saveData {V : Type} (stringify : List (String × V) → String)
    (data : List (String × V)) : Option String :=
  some (stringify data)

/-- `loadApplicants()` in `applicants.js`: read-only load, empty mapping on a
missing, blank or unparsable file. -/
def loadApplicants (parse : String → Option AppStore) (file : Option String) :
    AppStore :=
  match file with
  | none => []
  | some raw =>
    if raw.trim = "" then []
    else (parse raw).getD []

/-! ## Ticket Session Cache (`modules/data/cache.js`)

The cache file is a single JSON object holding both the sessions and the
`__counters` sub-object, so its values are modelled by a small JSON value
type.  `(x || 0) + 1` follows the JavaScript coercion rules. -/

inductive JVal where
  | null
  | str (s : String)
  | num (n : Nat)
  | obj (fields : List (String × JVal))

abbrev Cache := List (String × JVal)

/-- JS truthiness of `cache.__counters`. -/
def jtruthy : Option JVal → Bool
  | none => false
  | some JVal.null => false
  | some (JVal.str s) => s != ""
  | some (JVal.num n) => n != 0
  | some (JVal.obj _) => true

/-- `(x || 0) + 1` for a possibly-absent property value, with the JS
string/object coercions on the junk cases. -/
def jsIncr : Option JVal → JVal
  | some (JVal.num n) => JVal.num (n + 1)
  | some (JVal.str s) => if s = "" then JVal.num 1 else JVal.str (s ++ "1")
  | some (JVal.obj _) => JVal.str "[object Object]1"
  | some JVal.null => JVal.num 1
  | none => JVal.num 1

/-- The counters object installed when `__counters` is falsy. -/
def initCounters : List (String × JVal) :=
  [("application", JVal.num 0), ("normal", JVal.num 0)]

/-- `cache.get(channelId)` — `cache[channelId] || null`. -/
def cacheGet (cache : Cache) (channelId : String) : Option JVal :=
  match lookupKey cache channelId with
  | some v => if jtruthy (some v) then some v else none
  | none => none

/-- `cache.set(channelId, data)`. -/
def cacheSet (cache : Cache) (channelId : String) (data : JVal) : Cache :=
  setKey cache channelId data

/-- `cache.delete(channelId)`. -/
def cacheDelete (cache : Cache) (channelId : String) : Cache :=
  delKey cache channelId

/-- `cache.getNextNumber(type)`: returns the value handed back to the caller
(`none` models `undefined`, reachable only when `__counters` holds a truthy
primitive, on which the property assignment is a silent no-op) together with
the written cache. -/
def getNextNumber (cache : Cache) (ty : String) : Option JVal × Cache :=
  let cv := lookupKey cache "__counters"
  if jtruthy cv = false then
    let newv := jsIncr (lookupKey initCounters ty)
    let fs1 := setKey initCounters ty newv
    (some newv, setKey cache "__counters" (JVal.obj fs1))
  else
    match cv with
    | some (JVal.obj fs) =>
      let newv := jsIncr (lookupKey fs ty)
      let fs1 := setKey fs ty newv
      (some newv, setKey cache "__counters" (JVal.obj fs1))
    | _ => (none, cache)

/-- The current counter value for `ty` as recorded in the cache (0 when
missing or unreadable). -/
def counterValue (cache : Cache) (ty : String) : Nat :=
  match lookupKey cache "__counters" with
  | some (JVal.obj fs) =>
    match lookupKey fs ty with
    | some (JVal.num n) => n
    | _ => 0
  | _ => 0

/-- The `__counters` entry is in a state `getNextNumber` reads as a number:
absent or falsy (it then reinstalls the initial counters), or an object whose
`ty` field is absent or a number. -/
def CounterReadable (cache : Cache) (ty : String) : Prop :=
  match lookupKey cache "__counters" with
  | none => True
  | some JVal.null => True
  | some (JVal.num k) => k = 0
  | some (JVal.str s) => s = ""
  | some (JVal.obj fs) =>
    lookupKey fs ty = none ∨ ∃ n, lookupKey fs ty = some (JVal.num n)

/-! ## Shape invariant of records written by `saveApplicant`, and concrete data -/

/-- Shape facts true of every record `saveApplicant` writes (with a non-empty
timestamp): no legacy field, no empty-string optionals, derived lookup key. -/
def CanonicalRecord (r : ApplicantRecord) : Prop :=
  r.minecraftName = none ∧
  r.minecraftUser ≠ some "" ∧
  r.minecraftUserKey = r.minecraftUser.map lowerStr ∧
  r.openedAt ≠ "" ∧
  r.timezone ≠ some "" ∧
  r.previousGroups ≠ some "" ∧
  r.reason ≠ some ""

/-- A concrete session object, as stored by `cache.set` when a ticket opens. -/
def demoSession : JVal :=
  JVal.obj [("type", JVal.str "application"), ("openerId", JVal.str "u1")]

/-- A link store holding Discord id `d1 → Steve` and `d2 → Alex`. -/
def cexLinks : LinkStore :=
  [("d1", ⟨"d1", "Steve"⟩), ("d2", ⟨"d2", "Alex"⟩)]

/-- A full application submission, as the Open transition supplies. -/
def c4FirstInput : ApplicantInput :=
  { discordUser := some "Alice#1"
    minecraftUser := some "Steve"
    minecraftVersion := some "Java"
    timezone := some "GMT+1"
    previousGroups := some "none"
    reason := some "because"
    server := some "g1" }

/-- The store after saving `c4FirstInput` for `d1` at time `T0`. -/
def c4Store1 : AppStore :=
  (saveApplicant [] "d1" c4FirstInput none none false none "T0").2

/-- A later partial update that supplies only the Minecraft username. -/
def c4SecondInput : ApplicantInput :=
  { minecraftUser := some "Steve" }

/-- The applicant store right after `d1` opened an application. -/
def c5Apps : AppStore :=
  (openApplication [] "d1" "applicant#1" "Steve" "Java" "GMT+1" "none" "because"
    "g1" "T0").2

/-- The record the Open transition stored for `d1`. -/
def c5Record : ApplicantRecord :=
  (openApplication [] "d1" "applicant#1" "Steve" "Java" "GMT+1" "none" "because"
    "g1" "T0").1

/-- A fully accepted applicant record, ready for promotion. -/
def demoApplicantAccepted : ApplicantRecord :=
  { discordId := "d1"
    discordUser := some "applicant#1"
    minecraftUser := some "Steve"
    minecraftUserKey := some "steve"
    minecraftVersion := some "Java"
    timezone := some "GMT+1"
    previousGroups := some "none"
    reason := some "because"
    openedAt := "T0"
    server := some "g1"
    accepted := true
    closeReason := none
    closedAt := none
    minecraftName := none
    discordTag := none }

/-- A registered clan for guild `g1`. -/
def demoClan : ClanRecord :=
  { abbr := "KZN", name := "Kenza", joinedEmpire := "2024-01-01" }

/-! # Theorems -/

/-! ## Helper lemmas -/

theorem truthyS_none : truthyS none = false := rfl

theorem truthyS_some (s : String) : truthyS (some s) = (s != "") := rfl

theorem lowerStr_eq_empty_iff (s : String) : lowerStr s = "" ↔ s = "" := by
  cases s with
  | mk data =>
    simp only [lowerStr]
    constructor
    · intro h
      have hdata : data.map Char.toLower = ([] : List Char) := congrArg String.data h
      have : data = [] := List.map_eq_nil_iff.mp hdata
      simp [this]
    · intro h
      have : data = [] := congrArg String.data h
      simp [this]

theorem lookupKey_setKey_self {V : Type} (l : List (String × V)) (k : String) (v : V) :
    lookupKey (setKey l k v) k = some v := by
  induction l with
  | nil => simp [setKey, lookupKey]
  | cons hd tl ih =>
    obtain ⟨k', w⟩ := hd
    by_cases h : k' = k
    · simp [setKey, lookupKey, h]
    · simp [setKey, lookupKey, h, ih]

theorem lookupKey_setKey_ne {V : Type} (l : List (String × V)) (k k' : String) (v : V)
    (h : k' ≠ k) : lookupKey (setKey l k v) k' = lookupKey l k' := by
  induction l with
  | nil => simp [setKey, lookupKey, Ne.symm h]
  | cons hd tl ih =>
    obtain ⟨k₀, w⟩ := hd
    by_cases h0 : k₀ = k
    · subst h0
      simp [setKey, lookupKey, Ne.symm h]
    · simp [setKey, lookupKey, h0, ih]

theorem setKey_of_lookup_none {V : Type} (l : List (String × V)) (k : String) (v : V)
    (h : lookupKey l k = none) : setKey l k v = l ++ [(k, v)] := by
  induction l with
  | nil => simp [setKey]
  | cons hd tl ih =>
    obtain ⟨k₀, w⟩ := hd
    by_cases h0 : k₀ = k
    · simp [lookupKey, h0] at h
    · simp [lookupKey, h0] at h
      simp [setKey, h0, ih h]

theorem lookupKey_delKey_self {V : Type} (l : List (String × V)) (k : String) :
    lookupKey (delKey l k) k = none := by
  induction l with
  | nil => simp [delKey, lookupKey]
  | cons hd tl ih =>
    obtain ⟨k₀, w⟩ := hd
    by_cases h0 : k₀ = k
    · simp [delKey, h0, ih]
    · simp [delKey, lookupKey, h0, ih]

theorem lookupKey_delKey_ne {V : Type} (l : List (String × V)) (k k' : String)
    (h : k' ≠ k) : lookupKey (delKey l k) k' = lookupKey l k' := by
  induction l with
  | nil => simp [delKey]
  | cons hd tl ih =>
    obtain ⟨k₀, w⟩ := hd
    by_cases h0 : k₀ = k
    · subst h0
      simp [delKey, lookupKey, Ne.symm h, ih]
    · simp [delKey, lookupKey, h0, ih]

theorem firstTruthy_ne_some_empty (l : List (Option String)) :
    firstTruthy l ≠ some "" := by
  induction l with
  | nil => simp [firstTruthy]
  | cons a rest ih =>
    by_cases h : truthyS a = true
    · cases a with
      | none => simp [truthyS] at h
      | some s =>
        simp [truthyS] at h
        simp [firstTruthy, truthyS, h]
    · simp [firstTruthy, h, ih]

theorem truthyS_some_of_ne {s : String} (h : s ≠ "") : truthyS (some s) = true := by
  simp [truthyS, bne_iff_ne, h]

theorem truthyS_some_empty : truthyS (some "") = false := rfl

theorem jsIncr_initCounters (ty : String) :
    jsIncr (lookupKey initCounters ty) = JVal.num 1 := by
  by_cases h1 : ("application" : String) = ty
  · simp [initCounters, lookupKey, h1, jsIncr]
  · by_cases h2 : ("normal" : String) = ty
    · simp [initCounters, lookupKey, h1, h2, jsIncr]
    · simp [initCounters, lookupKey, h1, h2, jsIncr]

theorem find?_append_of_none {α : Type} (l₁ l₂ : List α) (p : α → Bool)
    (h : l₁.find? p = none) : (l₁ ++ l₂).find? p = l₂.find? p := by
  induction l₁ with
  | nil => simp
  | cons a rest ih =>
    rw [List.find?_cons] at h
    rw [List.cons_append, List.find?_cons]
    cases hpa : p a with
    | true =>
      rw [hpa] at h
      exact absurd h (by simp)
    | false =>
      rw [hpa] at h
      exact ih h

/-! ## Claim theorems -/

/-- C9: `isUnlinked(discordId)` returns true if and only if the Member
Registry has no record keyed by `discordId` and the Identity Link Registry
resolves no Minecraft username for `discordId` — both lookups miss. -/
theorem isUnlinked_iff_both_lookups_miss (members : MemberStore) (links : LinkStore)
    (discordId : String) :
    isUnlinked members links discordId = true ↔
      (getMemberByDiscordId members discordId = none ∧
        getMCFromDiscord links discordId = none) := by
  cases hm : getMemberByDiscordId members discordId <;>
    cases hl : getMCFromDiscord links discordId <;>
      simp [isUnlinked, hm, hl]

/-- C1: contrary to the claim, the deferred auto-link task started after Open
never attempts the link for a record created by the Open transition: it reads
the legacy `minecraftName` field, which `saveApplicant` never writes, and so
always resolves the `no_applicant_or_no_mc` failure object with the link
store untouched — even though (second conjunct) `linkMember` with the
just-submitted username would have succeeded on an empty link registry. -/
theorem processApplicant_after_open_never_links :
    (∀ (apps : AppStore) (links : LinkStore)
      (userId userTag mcName mcVersion tz prevGroups reasonText guildId now : String),
      processApplicant
        (openApplication apps userId userTag mcName mcVersion tz prevGroups
          reasonText guildId now).2 links userId
        = (LinkResult.noApplicantOrNoMc userId, links)) ∧
    (linkMember
        (openApplication [] "d1" "applicant#1" "Steve" "Java" "GMT+1" "none"
          "because" "g1" "2024-01-01T00:00:00Z").2
        [] "d1" (some "Steve")).1
      = LinkResult.ok "d1" "Steve" := by
  constructor
  · intro apps links userId userTag mcName mcVersion tz prevGroups reasonText guildId now
    simp [processApplicant, openApplication, saveApplicant, getApplicant,
      lookupKey_setKey_self, truthyS]
  · rfl

/-- C10: the per-type counters live in the session mapping under the
unguarded key `__counters`: `set` overwrites them, `delete` erases them, and
in either case `getNextNumber` restarts from 1. -/
theorem counters_share_session_mapping (cache : Cache) (fs : List (String × JVal))
    (v : JVal) (ty : String) :
    lookupKey (cacheSet cache "__counters" v) "__counters" = some v ∧
    lookupKey (cacheDelete cache "__counters") "__counters" = none ∧
    (getNextNumber (cacheDelete cache "__counters") ty).1 = some (JVal.num 1) ∧
    (lookupKey fs ty = none →
      (getNextNumber (cacheSet cache "__counters" (JVal.obj fs)) ty).1
        = some (JVal.num 1)) := by
  refine ⟨lookupKey_setKey_self _ _ _, lookupKey_delKey_self _ _, ?_, ?_⟩
  · simp [getNextNumber, cacheDelete, lookupKey_delKey_self, jtruthy,
      jsIncr_initCounters]
  · intro h
    simp [getNextNumber, cacheSet, lookupKey_setKey_self, jtruthy, h, jsIncr]

/-- C10 witness: overwriting `__counters` with a session object makes the next
`application` ticket number restart at 1. -/
theorem counters_share_session_mapping_witness :
    (getNextNumber
        (cacheSet [] "__counters" (JVal.obj [("type", JVal.str "application")]))
        "application").1
      = some (JVal.num 1) :=
  (counters_share_session_mapping [] [("type", JVal.str "application")]
    (JVal.obj [("type", JVal.str "application")]) "application").2.2.2 rfl

/-- C8: Record Store load is total: a missing file yields an empty mapping
and creates the file, an unparsable file also yields an empty mapping, and a
subsequent save succeeds; `loadApplicants` likewise yields an empty mapping
on a missing or unparsable file. -/
theorem recordStore_load_never_fails (V : Type)
    (parse : String → Option (List (String × V))) (raw : String)
    (stringify : List (String × V) → String) (parseA : String → Option AppStore) :
    ensureDataFile parse none = (([] : List (String × V)), some "{}") ∧
    (parse raw = none → ensureDataFile parse (some raw) = ([], some "{}")) ∧
    (∃ contents, saveData stringify (ensureDataFile parse (some raw)).1
        = some contents) ∧
    loadApplicants parseA none = [] ∧
    (parseA raw = none → loadApplicants parseA (some raw) = []) := by
  refine ⟨rfl, ?_, ⟨stringify (ensureDataFile parse (some raw)).1, rfl⟩, rfl, ?_⟩
  · intro h
    by_cases ht : raw.trim = "" <;> simp [ensureDataFile, ht, h]
  · intro h
    by_cases ht : raw.trim = "" <;> simp [loadApplicants, ht, h]

/-- C8 witness: a concrete corrupt file is loaded as the empty mapping and
the file is rewritten to `"{}"`. -/
theorem recordStore_load_never_fails_witness :
    ensureDataFile (fun _ : String => (none : Option (List (String × Nat))))
        (some "corrupt ###")
      = ([], some "{}") :=
  (recordStore_load_never_fails Nat (fun _ => none) "corrupt ###"
    (fun _ => "{}") (fun _ => none)).2.1 rfl

/-- C7: per-type ticket counters are strictly increasing and never reused:
`getNextNumber(type)` returns and records exactly one more than the previous
counter value (starting at 1), deleting a session leaves the counters
unchanged, and the 3-opens/2-closes/1-open scenario yields ticket number 4. -/
theorem getNextNumber_strictly_increasing (cache : Cache) (ty : String)
    (h : CounterReadable cache ty) :
    (getNextNumber cache ty).1 = some (JVal.num (counterValue cache ty + 1)) ∧
    counterValue (getNextNumber cache ty).2 ty = counterValue cache ty + 1 ∧
    (∀ k, k ≠ "__counters" →
      counterValue (cacheDelete cache k) ty = counterValue cache ty) ∧
    (let r1 := getNextNumber ([] : Cache) "application"
     let c1 := cacheSet r1.2 "ch1" demoSession
     let r2 := getNextNumber c1 "application"
     let c2 := cacheSet r2.2 "ch2" demoSession
     let r3 := getNextNumber c2 "application"
     let c3 := cacheSet r3.2 "ch3" demoSession
     let c4 := cacheDelete (cacheDelete c3 "ch1") "ch2"
     let r4 := getNextNumber c4 "application"
     r1.1 = some (JVal.num 1) ∧ r2.1 = some (JVal.num 2) ∧
       r3.1 = some (JVal.num 3) ∧ r4.1 = some (JVal.num 4)) := by
  have hdel : ∀ k, k ≠ "__counters" →
      counterValue (cacheDelete cache k) ty = counterValue cache ty := by
    intro k hk
    unfold counterValue cacheDelete
    rw [lookupKey_delKey_ne _ _ _ (Ne.symm hk)]
  have hmain : (getNextNumber cache ty).1
        = some (JVal.num (counterValue cache ty + 1)) ∧
      counterValue (getNextNumber cache ty).2 ty = counterValue cache ty + 1 := by
    unfold CounterReadable at h
    cases hc : lookupKey cache "__counters" with
    | none =>
      constructor <;>
        simp [getNextNumber, counterValue, hc, jtruthy, jsIncr_initCounters,
          lookupKey_setKey_self]
    | some v =>
      rw [hc] at h
      cases v with
      | null =>
        constructor <;>
          simp [getNextNumber, counterValue, hc, jtruthy, jsIncr_initCounters,
            lookupKey_setKey_self]
      | num k =>
        constructor <;>
          simp [getNextNumber, counterValue, hc, jtruthy, h, jsIncr_initCounters,
            lookupKey_setKey_self]
      | str s =>
        constructor <;>
          simp [getNextNumber, counterValue, hc, jtruthy, h, jsIncr_initCounters,
            lookupKey_setKey_self]
      | obj fs =>
        rcases h with hn | ⟨n, hn⟩ <;>
          constructor <;>
            simp [getNextNumber, counterValue, hc, jtruthy, hn, jsIncr,
              lookupKey_setKey_self]
  exact ⟨hmain.1, hmain.2, hdel, rfl, rfl, rfl, rfl⟩

/-- C7 witness: on the empty cache the first `application` ticket number is 1. -/
theorem getNextNumber_strictly_increasing_witness :
    (getNextNumber ([] : Cache) "application").1 = some (JVal.num 1) :=
  (getNextNumber_strictly_increasing [] "application" (by trivial)).1

/-- C2 counterexample: with `d1 → Steve` and `d2 → Alex` stored, linking
`d1` to `alex` satisfies the claim's `username_used` trigger (`Alex` matches
`alex` case-insensitively) yet returns `already_linked`, because the
Discord-id check runs first. -/
theorem linkMember_precedence_counterexample :
    (∃ r ∈ cexLinks.map Prod.snd, lowerStr r.minecraftUser = lowerStr "alex") ∧
    (linkMember [] cexLinks "d1" (some "alex")).1
      = LinkResult.alreadyLinked "d1" "Steve" ∧
    (linkMember [] cexLinks "d1" (some "alex")).1 ≠ LinkResult.usernameUsed "alex" := by
  refine ⟨⟨⟨"d2", "Alex"⟩, ?_, ?_⟩, rfl, ?_⟩
  · simp [cexLinks]
  · rfl
  · intro hcontra
    rw [show (linkMember [] cexLinks "d1" (some "alex")).1
        = LinkResult.alreadyLinked "d1" "Steve" from rfl] at hcontra
    exact LinkResult.noConfusion hcontra

/-- C2 (amended — the `already_linked` check has precedence): for non-empty
arguments, `linkMember` fails with `already_linked` (carrying the stored
username) whenever `discordId` has a record; it fails with `username_used`
whenever `discordId` has no record but some stored username matches
case-insensitively; both failures leave the store unchanged; otherwise it
appends exactly one record keyed by `discordId`, storing `mcName` verbatim. -/
theorem linkMember_spec (apps : AppStore) (links : LinkStore) (id m : String)
    (hid : id ≠ "") (hm : m ≠ "") :
    (∀ r, lookupKey links id = some r →
      linkMember apps links id (some m)
        = (LinkResult.alreadyLinked id r.minecraftUser, links)) ∧
    (lookupKey links id = none →
      (∃ r ∈ links.map Prod.snd, lowerStr r.minecraftUser = lowerStr m) →
      linkMember apps links id (some m) = (LinkResult.usernameUsed m, links)) ∧
    (lookupKey links id = none →
      (∀ r ∈ links.map Prod.snd, lowerStr r.minecraftUser ≠ lowerStr m) →
      linkMember apps links id (some m)
        = (LinkResult.ok id m, links ++ [(id, ⟨id, m⟩)])) := by
  refine ⟨?_, ?_, ?_⟩
  · intro r hr
    simp [linkMember, hid, truthyS, hm, hr]
  · intro hnone hex
    have hany : (links.map Prod.snd).any
        (fun v => lowerStr v.minecraftUser == lowerStr m) = true := by
      rcases hex with ⟨r, hmem, hlow⟩
      exact List.any_eq_true.mpr ⟨r, hmem, by simp [hlow]⟩
    simp [linkMember, hid, truthyS, hm, hnone, hany]
  · intro hnone hall
    have hany : (links.map Prod.snd).any
        (fun v => lowerStr v.minecraftUser == lowerStr m) = false := by
      rw [List.any_eq_false]
      intro r hmem
      simp [hall r hmem]
    simp [linkMember, hid, truthyS, hm, hnone, hany,
      setKey_of_lookup_none links id _ hnone]

/-- C2 witness: on an empty store a fresh link is appended and succeeds. -/
theorem linkMember_spec_witness :
    linkMember [] [] "d1" (some "Steve")
      = (LinkResult.ok "d1" "Steve", [("d1", ⟨"d1", "Steve"⟩)]) := by
  have h := (linkMember_spec [] [] "d1" "Steve" (by decide) (by decide)).2.2
    rfl (by simp)
  simpa using h

/-- C3: whenever `linkMember(id, m)` succeeds on the current store, the
resulting store resolves `id` to exactly `m` (casing preserved) and resolves
every case-variant of `m` back to `id`. -/
theorem link_success_resolves_both_ways (apps : AppStore) (links links' : LinkStore)
    (id m : String)
    (h : linkMember apps links id (some m) = (LinkResult.ok id m, links')) :
    getMCFromDiscord links' id = some m ∧
    (∀ s, lowerStr s = lowerStr m → getDiscordFromMC links' s = some id) := by
  by_cases hid : id = ""
  · rw [hid] at h
    simp [linkMember] at h
  by_cases hm : m = ""
  · exfalso
    subst hm
    cases ha : getApplicant apps id with
    | none => simp [linkMember, hid, truthyS, ha] at h
    | some app =>
      cases hms : app.minecraftName with
      | none => simp [linkMember, hid, truthyS, ha, hms] at h
      | some s =>
        by_cases hs : s = ""
        · simp [linkMember, hid, truthyS, ha, hms, hs] at h
        · cases hl : lookupKey links id with
          | some ex =>
            simp [linkMember, hid, truthyS, truthyS_some_of_ne hs, ha, hms, hl,
              hs] at h
          | none =>
            cases hany : (links.map Prod.snd).any
                (fun v => lowerStr v.minecraftUser == lowerStr s) with
            | true =>
              simp [linkMember, hid, truthyS, truthyS_some_of_ne hs, ha, hms, hl,
                hany, hs] at h
            | false =>
              simp [linkMember, hid, truthyS, truthyS_some_of_ne hs, ha, hms, hl,
                hany, hs] at h
  -- main path: both arguments non-empty
  cases hl : lookupKey links id with
  | some ex =>
    exfalso
    simp [linkMember, hid, truthyS_some_of_ne hm, hl] at h
  | none =>
    cases hany : (links.map Prod.snd).any
        (fun v => lowerStr v.minecraftUser == lowerStr m) with
    | true =>
      exfalso
      simp [linkMember, hid, truthyS_some_of_ne hm, hl, hany] at h
    | false =>
      have hcomp : linkMember apps links id (some m)
          = (LinkResult.ok id m, setKey links id ⟨id, m⟩) := by
        simp [linkMember, hid, truthyS_some_of_ne hm, hl, hany]
      have hpair := hcomp.symm.trans h
      have hlinks' : setKey links id ⟨id, m⟩ = links' := congrArg Prod.snd hpair
      subst hlinks'
      constructor
      · simp [getMCFromDiscord, lookupKey_setKey_self, hm]
      · intro s hs
        have hsne : s ≠ "" := by
          intro hse
          exact hm ((lowerStr_eq_empty_iff m).mp
            (hs.symm.trans ((lowerStr_eq_empty_iff s).mpr hse)))
        have hset : setKey links id (⟨id, m⟩ : LinkRecord)
            = links ++ [(id, ⟨id, m⟩)] := setKey_of_lookup_none links id _ hl
        rw [hset]
        unfold getDiscordFromMC
        rw [if_neg hsne]
        have hmap : (links ++ [(id, (⟨id, m⟩ : LinkRecord))]).map Prod.snd
            = links.map Prod.snd ++ [⟨id, m⟩] := by simp
        rw [hmap, hs]
        have hnone1 : (links.map Prod.snd).find?
            (fun v => lowerStr v.minecraftUser == lowerStr m) = none := by
          rw [List.find?_eq_none]
          intro v hv
          have hvfalse := List.any_eq_false.mp hany v hv
          simpa using hvfalse
        simp only [find?_append_of_none _ _ _ hnone1]
        simp [List.find?, hid]

/-- C3 witness: after linking `d1 → Steve` on empty stores, `d1` resolves to
`Steve` and the case-variant `STEVE` resolves back to `d1`. -/
theorem link_success_resolves_both_ways_witness :
    getMCFromDiscord [("d1", ⟨"d1", "Steve"⟩)] "d1" = some "Steve" ∧
    getDiscordFromMC [("d1", ⟨"d1", "Steve"⟩)] "STEVE" = some "d1" := by
  have h := link_success_resolves_both_ways [] [] [("d1", ⟨"d1", "Steve"⟩)]
    "d1" "Steve" rfl
  exact ⟨h.1, h.2 "STEVE" (by decide)⟩

theorem firstTruthy_singleton {o : Option String} (h : o ≠ some "") :
    firstTruthy [o] = o := by
  cases o with
  | none => rfl
  | some s =>
    have hs : s ≠ "" := fun hh => h (hh ▸ rfl)
    simp [firstTruthy, truthyS_some_of_ne hs]

theorem firstTruthy_cons_truthy {s : String} (h : s ≠ "")
    (rest : List (Option String)) :
    firstTruthy (some s :: rest) = some s := by
  simp [firstTruthy, truthyS_some_of_ne h]

theorem firstTruthy_pair_none_getD (x : String) :
    (firstTruthy [some x, none]).getD "" = x := by
  by_cases h : x = ""
  · simp [firstTruthy, truthyS, h]
  · simp [firstTruthy, truthyS_some_of_ne h]

theorem saveApplicant_canonical (store : AppStore) (id : String) (a : ApplicantInput)
    (sid cr : Option String) (acc : Bool) (ca : Option String) (now : String)
    (hnow : now ≠ "") :
    CanonicalRecord (saveApplicant store id a sid cr acc ca now).1 := by
  unfold CanonicalRecord saveApplicant
  refine ⟨rfl, ?_, ?_, ?_, firstTruthy_ne_some_empty _, firstTruthy_ne_some_empty _,
    firstTruthy_ne_some_empty _⟩
  · by_cases hmc : (firstTruthy [a.minecraftUser, a.minecraftName]).getD "" = "" <;>
      simp [hmc]
  · by_cases hmc : (firstTruthy [a.minecraftUser, a.minecraftName]).getD "" = ""
    · simp [hmc]
    · have hlow : lowerStr ((firstTruthy [a.minecraftUser, a.minecraftName]).getD "")
          ≠ "" := fun hh => hmc ((lowerStr_eq_empty_iff _).mp hh)
      simp [hmc, hlow]
  · cases ho : a.openedAt with
    | none => simpa using hnow
    | some s =>
      by_cases hso : s = "" <;> simp [hso, hnow]

/-- C4 counterexample: the record for `d1` has `timezone = some "GMT+1"` and
`openedAt = "T0"`; a second `saveApplicant` that supplies only the Minecraft
username resets `timezone` to `null` (not the previous value) and re-stamps
`openedAt` with the new current time even though it was already set. -/
theorem saveApplicant_counterexample :
    (saveApplicant [] "d1" c4FirstInput none none false none "T0").1.timezone
      = some "GMT+1" ∧
    lookupKey c4Store1 "d1"
      = some (saveApplicant [] "d1" c4FirstInput none none false none "T0").1 ∧
    (saveApplicant c4Store1 "d1" c4SecondInput none none false none "T1").1.timezone
      = none ∧
    (saveApplicant [] "d1" c4FirstInput none none false none "T0").1.openedAt
      = "T0" ∧
    (saveApplicant c4Store1 "d1" c4SecondInput none none false none "T1").1.openedAt
      = "T1" ∧
    (some "GMT+1" ≠ (none : Option String)) ∧ ("T0" ≠ "T1") := by
  exact ⟨rfl, rfl, rfl, rfl, rfl, by decide, by decide⟩

/-- C4 (amended): `saveApplicant` builds the stored record entirely from the
supplied fields, independent of the existing record (unsupplied fields get
defaults, not previous values); it always re-derives `minecraftUserKey` as
the lowercase of `minecraftUser`, and stamps `openedAt` with the current time
exactly when the supplied fields carry no truthy `openedAt`. -/
theorem saveApplicant_replaces (store store₂ : AppStore) (id : String)
    (a : ApplicantInput) (sid cr : Option String) (acc : Bool) (ca : Option String)
    (now : String) :
    (saveApplicant store id a sid cr acc ca now).1
      = (saveApplicant store₂ id a sid cr acc ca now).1 ∧
    lookupKey (saveApplicant store id a sid cr acc ca now).2 id
      = some (saveApplicant store id a sid cr acc ca now).1 ∧
    (∀ mu, (saveApplicant store id a sid cr acc ca now).1.minecraftUser = some mu →
      (saveApplicant store id a sid cr acc ca now).1.minecraftUserKey
        = some (lowerStr mu)) ∧
    ((saveApplicant store id a sid cr acc ca now).1.minecraftUser = none →
      (saveApplicant store id a sid cr acc ca now).1.minecraftUserKey = none) ∧
    (truthyS a.openedAt = false →
      (saveApplicant store id a sid cr acc ca now).1.openedAt = now) ∧
    (∀ s, a.openedAt = some s → s ≠ "" →
      (saveApplicant store id a sid cr acc ca now).1.openedAt = s) := by
  refine ⟨rfl, lookupKey_setKey_self store id _, ?_, ?_, ?_, ?_⟩
  · intro mu hmu
    by_cases hmc : (firstTruthy [a.minecraftUser, a.minecraftName]).getD "" = ""
    · simp [saveApplicant, hmc] at hmu
    · have hlow : lowerStr ((firstTruthy [a.minecraftUser, a.minecraftName]).getD "")
          ≠ "" := fun hh => hmc ((lowerStr_eq_empty_iff _).mp hh)
      simp [saveApplicant, hmc, hlow] at hmu ⊢
      rw [hmu]
  · intro hnone
    by_cases hmc : (firstTruthy [a.minecraftUser, a.minecraftName]).getD "" = ""
    · simp [saveApplicant, hmc]
    · simp [saveApplicant, hmc] at hnone
  · intro ht
    cases ho : a.openedAt with
    | none => simp [saveApplicant, ho]
    | some s =>
      rw [ho] at ht
      simp [truthyS] at ht
      simp [saveApplicant, ho, ht]
  · intro s hso hsne
    simp [saveApplicant, hso, hsne]

/-- C4 witness: a fresh save stamps `openedAt` with the current time and
derives the lowercase lookup key. -/
theorem saveApplicant_replaces_witness :
    (saveApplicant [] "d1" c4FirstInput none none false none "T0").1.openedAt
      = "T0" ∧
    (saveApplicant [] "d1" c4FirstInput none none false none "T0").1.minecraftUserKey
      = some "steve" := by
  have h := saveApplicant_replaces [] [] "d1" c4FirstInput none none false none "T0"
  exact ⟨h.2.2.2.2.1 rfl, h.2.2.1 "Steve" rfl⟩

/-- C5 counterexample: `d1` opened an application (stored
`discordUser = "applicant#1"`); when staff member `staff#2` submits the close
reason, the re-saved record's `discordUser` is the closer's tag, not the
applicant's — the Close transition does not preserve `discordUser`. -/
theorem closeTicket_counterexample :
    c5Record.discordUser = some "applicant#1" ∧
    lookupKey c5Apps "d1" = some c5Record ∧
    (lookupKey (closeTicket c5Apps "d1" "staff#2" "g1" "done" "T1") "d1").map
        ApplicantRecord.discordUser = some (some "staff#2") ∧
    (some "staff#2" : Option String) ≠ some "applicant#1" := by
  exact ⟨rfl, rfl, rfl, by decide⟩

/-- C5 (amended): for a canonical stored record, Close changes only
`closeReason`, `closedAt`, `discordUser` (set to the closing user's tag) and
`server` (set to the closing guild); `minecraftUser` and every other field
keep their previous values. -/
theorem closeTicket_frame (apps : AppStore)
    (openerId closerTag guildId reasonText now : String) (r : ApplicantRecord)
    (hr : lookupKey apps openerId = some r) (hcan : CanonicalRecord r)
    (hct : closerTag ≠ "") (hg : guildId ≠ "") (hrt : reasonText ≠ "")
    (hn : now ≠ "") :
    ∃ r2, lookupKey (closeTicket apps openerId closerTag guildId reasonText now)
        openerId = some r2 ∧
      r2.discordId = openerId ∧
      r2.minecraftUser = r.minecraftUser ∧
      r2.minecraftUserKey = r.minecraftUserKey ∧
      r2.minecraftVersion = r.minecraftVersion ∧
      r2.timezone = r.timezone ∧
      r2.previousGroups = r.previousGroups ∧
      r2.reason = r.reason ∧
      r2.openedAt = r.openedAt ∧
      r2.accepted = r.accepted ∧
      r2.closeReason = some reasonText ∧
      r2.closedAt = some now ∧
      r2.discordUser = some closerTag ∧
      r2.server = some guildId := by
  obtain ⟨hname, hmu, hkey, hoa, htz, hpg, hrs⟩ := hcan
  unfold closeTicket getApplicant
  simp only [hr, recordToInput]
  cases hmuv : r.minecraftUser with
  | none =>
    rw [hmuv] at hkey
    simp only [hmuv, hname]
    refine ⟨_, lookupKey_setKey_self apps openerId _, rfl, ?_, ?_, rfl,
      firstTruthy_singleton htz, firstTruthy_singleton hpg,
      firstTruthy_singleton hrs, if_neg hoa, rfl,
      firstTruthy_cons_truthy hrt _, firstTruthy_cons_truthy hn _,
      firstTruthy_cons_truthy hct _, firstTruthy_cons_truthy hg _⟩
    · rfl
    · rw [hkey]
      rfl
  | some mc =>
    have hmcne : mc ≠ "" := fun hh => hmu (by rw [hmuv, hh])
    rw [hmuv] at hkey
    have hlow : lowerStr mc ≠ "" :=
      fun hh => hmcne ((lowerStr_eq_empty_iff mc).mp hh)
    simp only [hmuv, hname]
    refine ⟨_, lookupKey_setKey_self apps openerId _, rfl, ?_, ?_, rfl,
      firstTruthy_singleton htz, firstTruthy_singleton hpg,
      firstTruthy_singleton hrs, if_neg hoa, rfl,
      firstTruthy_cons_truthy hrt _, firstTruthy_cons_truthy hn _,
      firstTruthy_cons_truthy hct _, firstTruthy_cons_truthy hg _⟩
    · simp only [saveApplicant, firstTruthy_pair_none_getD]
      rw [if_neg hmcne]
    · simp only [saveApplicant, firstTruthy_pair_none_getD]
      rw [if_neg hmcne, if_neg hlow, hkey]
      rfl

/-- C5 witness: closing the freshly opened `d1` application preserves the
Minecraft fields and stamps the close data. -/
theorem closeTicket_frame_witness :
    ∃ r2, lookupKey (closeTicket c5Apps "d1" "staff#2" "g1" "done" "T1") "d1"
        = some r2 ∧
      r2.discordId = "d1" ∧
      r2.minecraftUser = c5Record.minecraftUser ∧
      r2.minecraftUserKey = c5Record.minecraftUserKey ∧
      r2.minecraftVersion = c5Record.minecraftVersion ∧
      r2.timezone = c5Record.timezone ∧
      r2.previousGroups = c5Record.previousGroups ∧
      r2.reason = c5Record.reason ∧
      r2.openedAt = c5Record.openedAt ∧
      r2.accepted = c5Record.accepted ∧
      r2.closeReason = some "done" ∧
      r2.closedAt = some "T1" ∧
      r2.discordUser = some "staff#2" ∧
      r2.server = some "g1" :=
  closeTicket_frame c5Apps "d1" "staff#2" "g1" "done" "T1" c5Record rfl
    (saveApplicant_canonical [] "d1"
      { discordUser := some "applicant#1"
        minecraftUser := some "Steve"
        minecraftVersion := some "Java"
        timezone := some "GMT+1"
        previousGroups := some "none"
        reason := some "because"
        server := some "g1" }
      none none false none "T0" (by decide))
    (by decide) (by decide) (by decide) (by decide)

/-- C6: `acceptApplicant(discordId)` is a no-op when the applicant record is
missing or not accepted; otherwise it unconditionally overwrites the member
record for `discordId` with an entry whose `JoinedClan` is the clan name
registered under the record's server (the literal `"Unknown"` when absent)
and whose `JoinDate` is the formatted current promotion time. -/
theorem acceptApplicant_spec (apps : AppStore) (clans : ClanStore)
    (members : MemberStore) (discordId : String) (now : Date) :
    (lookupKey apps discordId = none →
      acceptApplicant apps clans members discordId now = members) ∧
    (∀ a, lookupKey apps discordId = some a → a.accepted = false →
      acceptApplicant apps clans members discordId now = members) ∧
    (∀ a, lookupKey apps discordId = some a → a.accepted = true →
      ∃ e, acceptApplicant apps clans members discordId now
          = setKey members discordId e ∧
        lookupKey (acceptApplicant apps clans members discordId now) discordId
          = some e ∧
        e.discordId = discordId ∧
        e.JoinDate = formatDate now ∧
        (a.server.bind (lookupKey clans) = none → e.JoinedClan = "Unknown") ∧
        (∀ c, a.server.bind (lookupKey clans) = some c → c.name ≠ "" →
          e.JoinedClan = c.name)) := by
  refine ⟨?_, ?_, ?_⟩
  · intro h
    simp [acceptApplicant, h]
  · intro a ha hacc
    simp [acceptApplicant, ha, hacc]
  · intro a ha hacc
    refine ⟨⟨discordId, a.discordUser.getD "", a.minecraftUser.getD "",
        a.minecraftVersion.getD "",
        (match a.server with
          | none => "Unknown"
          | some s =>
            match lookupKey clans s with
            | some c => if c.name = "" then "Unknown" else c.name
            | none => "Unknown"),
        formatDate now, "", "", ""⟩, ?_, ?_, rfl, rfl, ?_, ?_⟩
    · simp [acceptApplicant, ha, hacc]
    · simp [acceptApplicant, ha, hacc, lookupKey_setKey_self]
    · intro hnone
      cases hsv : a.server with
      | none => rfl
      | some s =>
        rw [hsv] at hnone
        simp at hnone
        simp [hnone]
    · intro c hc hcname
      cases hsv : a.server with
      | none =>
        rw [hsv] at hc
        simp at hc
      | some s =>
        rw [hsv] at hc
        simp at hc
        simp [hc, hcname]

/-- C6 witness: promoting the accepted `d1` whose server `g1` has a clan
record named `Kenza`. -/
theorem acceptApplicant_spec_witness :
    ∃ e, acceptApplicant [("d1", demoApplicantAccepted)] [("g1", demoClan)] []
          "d1" ⟨5, 3, 2024⟩
        = setKey [] "d1" e ∧
      lookupKey (acceptApplicant [("d1", demoApplicantAccepted)]
          [("g1", demoClan)] [] "d1" ⟨5, 3, 2024⟩) "d1" = some e ∧
      e.discordId = "d1" ∧
      e.JoinDate = formatDate ⟨5, 3, 2024⟩ ∧
      (demoApplicantAccepted.server.bind (lookupKey [("g1", demoClan)]) = none →
        e.JoinedClan = "Unknown") ∧
      (∀ c, demoApplicantAccepted.server.bind (lookupKey [("g1", demoClan)])
          = some c → c.name ≠ "" → e.JoinedClan = c.name) :=
  (acceptApplicant_spec [("d1", demoApplicantAccepted)] [("g1", demoClan)] []
    "d1" ⟨5, 3, 2024⟩).2.2 demoApplicantAccepted rfl rfl

end KenzAI
